import Mathlib

/-!
Shallow embedding of `src/backend/server.js` of the amazon-book-analyzer
repository, together with proofs about the claims of its specification.

Strings are modelled as `List Char`.  JavaScript numbers appearing in the
embedded fragment of the program are either natural numbers (`parseInt`
results on digit strings), rationals (`parseFloat` results on decimal
literals, modelled exactly), or `NaN`; a value that may be `NaN` is modelled
as an `Option` whose `none` case is `NaN` (every JavaScript comparison
against `NaN` is false, which the `js…` comparison helpers reproduce).

The regular expressions of the source are embedded as hand-compiled matchers.
Each pattern of the source is deterministic in the sense that the greedy /
lazy quantifier choices of the JavaScript engine never need backtracking on
these particular patterns (adjacent sub-patterns have disjoint first-character
sets), so each is faithfully rendered as a straight-line matcher at a given
position, and the leftmost-match rule of `String.prototype.match` is rendered by
trying every suffix of the subject in order (`firstMatchFrom`).
-/

/-- JavaScript whitespace class `\s` restricted to the ASCII range (space,
tab, line feed, vertical tab, form feed, carriage return). -/
def isWs (c : Char) : Bool :=
  c = ' ' || c = '\t' || c = '\n' || c = '\x0b' || c = '\x0c' || c = '\r'

/-- Character class `[0-9,]` used by the rank and review-count patterns. -/
def isDigitComma (c : Char) : Bool :=
  c.isDigit || c = ','

/-- Greedy `\s*`: drop the maximal whitespace run. -/
def skipWs : List Char → List Char
  | [] => []
  | c :: cs => if isWs c then skipWs cs else c :: cs

/-- Mandatory `\s+`: at least one whitespace character, then the maximal run. -/
def matchWsPlus : List Char → Option (List Char)
  | [] => none
  | c :: cs => if isWs c then some (skipWs cs) else none

/-- Case-insensitive literal: the pattern is given in lower case; on success
returns the rest of the subject. -/
def matchLitCI : List Char → List Char → Option (List Char)
  | [], s => some s
  | _ :: _, [] => none
  | p :: ps, c :: cs => if c.toLower = p then matchLitCI ps cs else none

/-- Case-sensitive literal; on success returns the rest of the subject. -/
def matchLit : List Char → List Char → Option (List Char)
  | [], s => some s
  | _ :: _, [] => none
  | p :: ps, c :: cs => if c = p then matchLit ps cs else none

/-- Optional `s?` (case-insensitive). -/
def matchOptS : List Char → List Char
  | [] => []
  | c :: cs => if c.toLower = 's' then cs else c :: cs

/-- Lazy `.*?[#]([0-9,]+)`: scan forward (never across a line terminator,
since `.` does not match one) for a `#` followed by at least one `[0-9,]`
character, and capture the maximal `[0-9,]+` run after the first such `#`. -/
def lazyHashNum : List Char → Option (List Char)
  | [] => none
  | c :: cs =>
    if c = '#' && !(cs.takeWhile isDigitComma).isEmpty then
      some (cs.takeWhile isDigitComma)
    else if c = '\n' || c = '\r' then none
    else lazyHashNum cs

/-- Pattern 1 of `bsrPatterns`, at one position:
`/Best\s*Sellers?\s*Rank.*?[#]([0-9,]+)/i`.  Returns the capture group. -/
def matchP1At (s : List Char) : Option (List Char) :=
  (matchLitCI "best".toList s).bind fun s1 =>
  (matchLitCI "seller".toList (skipWs s1)).bind fun s2 =>
  (matchLitCI "rank".toList (skipWs (matchOptS s2))).bind fun s3 =>
  lazyHashNum s3

/-- Pattern 2 of `bsrPatterns`, at one position:
`/[#]([0-9,]+)\s+in\s+Books/i`.  Returns the capture group. -/
def matchP2At : List Char → Option (List Char)
  | '#' :: rest =>
    let cap := rest.takeWhile isDigitComma
    if cap.isEmpty then none else
    (matchWsPlus (rest.drop cap.length)).bind fun r1 =>
    (matchLitCI "in".toList r1).bind fun r2 =>
    (matchWsPlus r2).bind fun r3 =>
    (matchLitCI "books".toList r3).map fun _ => cap
  | _ => none

/-- Pattern 3 of `bsrPatterns`, at one position:
`/Amazon\s*Best\s*Sellers?\s*Rank.*?[#]([0-9,]+)/i`, which is the literal
`Amazon`, then `\s*`, then exactly pattern 1. -/
def matchP3At (s : List Char) : Option (List Char) :=
  (matchLitCI "amazon".toList s).bind fun s1 => matchP1At (skipWs s1)

/-- Pattern 4 of `bsrPatterns`, at one position: `/[#]([0-9,]+)/`. -/
def matchP4At : List Char → Option (List Char)
  | '#' :: rest =>
    let cap := rest.takeWhile isDigitComma
    if cap.isEmpty then none else some cap
  | _ => none

/-- Leftmost-match rule of `String.prototype.match`: try the position matcher
on every suffix, leftmost first (the position one past the end included). -/
def firstMatchFrom (m : List Char → Option (List Char)) : List Char → Option (List Char)
  | [] => m []
  | c :: cs =>
    match m (c :: cs) with
    | some r => some r
    | none => firstMatchFrom m cs

/-- The comma-removing replace step applied to a capture. -/
def stripCommas (s : List Char) : List Char :=
  s.filter (fun c => c ≠ ',')

/-- Value of a string of decimal digits. -/
def digitsToNat (l : List Char) : Nat :=
  l.foldl (fun a c => 10 * a + (c.toNat - '0'.toNat)) 0

/-- `parseInt` on a comma-stripped `[0-9,]+` capture, hence on a (possibly
empty) digit string: `NaN` (here `none`) exactly on the empty string. -/
def parseIntJS (s : List Char) : Option Nat :=
  if s.isEmpty then none else some (digitsToNat s)

/-- The ordered pattern array `bsrPatterns` of the source (lines 141-146). -/
def bsrPatterns : List (List Char → Option (List Char)) :=
  [matchP1At, matchP2At, matchP3At, matchP4At]

/-- The `for (const pattern of bsrPatterns)` loop: first pattern whose
leftmost match exists wins; returns its capture group. -/
def firstPatternCapture : List (List Char → Option (List Char)) → List Char → Option (List Char)
  | [], _ => none
  | p :: ps, t =>
    match firstMatchFrom p t with
    | some c => some c
    | none => firstPatternCapture ps t

/-- BSR extraction (source lines 140-154): sentinel `999999` when no pattern
matches, otherwise `parseInt` of the comma-stripped winning
capture (`none` models the `NaN` that an all-comma capture would produce). -/
def extractBSR (text : List Char) : Option Nat :=
  match firstPatternCapture bsrPatterns text with
  | none => some 999999
  | some cap => parseIntJS (stripCommas cap)

/-- The pattern array with the third pattern removed (for the redundancy
claim about `bsrPatterns`). -/
def bsrPatternsNoP3 : List (List Char → Option (List Char)) :=
  [matchP1At, matchP2At, matchP4At]

/-- Rank extractor over the reduced pattern array. -/
def extractBSRNoP3 (text : List Char) : Option Nat :=
  match firstPatternCapture bsrPatternsNoP3 text with
  | none => some 999999
  | some cap => parseIntJS (stripCommas cap)

/-- Tier colours of the scoring engine. -/
inductive Color where
  | green
  | yellow
  | red
  deriving DecidableEq, Repr

/-- A `{ score, value }` record as returned by `calculatePopularity`. -/
structure TierScore where
  score : Color
  value : Nat
  deriving DecidableEq, Repr

/-- A `{ score, value, count }` record as returned by the two count-based
scoring functions. -/
structure TierCount where
  score : Color
  value : Nat
  count : Nat
  deriving DecidableEq, Repr

/-- One element of the `items` array built by `scrapeAmazonData`.  `bsr`,
`reviews` and `price` are `Option`-valued because `parseInt`/`parseFloat`
can produce `NaN` (modelled as `none`) on degenerate captures. -/
structure Item where
  title : List Char
  asin : List Char
  price : Option Rat
  bsr : Option Nat
  rating : Rat
  reviews : Option Nat
  deriving DecidableEq, Repr

/-- JavaScript `a > b` where `a` may be `NaN`: false on `NaN`. -/
def jsGt (a : Option Nat) (b : Nat) : Bool :=
  match a with
  | some x => b < x
  | none => false

/-- JavaScript `a <= b` where `a` may be `NaN`: false on `NaN`. -/
def jsLe (a : Option Nat) (b : Nat) : Bool :=
  match a with
  | some x => x ≤ b
  | none => false

/-- JavaScript `a >= b` where `a` may be `NaN`: false on `NaN`. -/
def jsGe (a : Option Nat) (b : Nat) : Bool :=
  match a with
  | some x => b ≤ x
  | none => false

/-- `calculatePopularity` (source lines 243-251). -/
def calculatePopularity (totalResults : Nat) : TierScore :=
  if totalResults ≤ 1000 then ⟨Color.green, 100⟩
  else if totalResults ≤ 3000 then ⟨Color.yellow, 50⟩
  else ⟨Color.red, 0⟩

/-- The filter predicate of `calculateProfitability`:
`item.bsr > 0 && item.bsr <= 30000 && item.reviews <= 200`. -/
def profitableP (i : Item) : Bool :=
  jsGt i.bsr 0 && jsLe i.bsr 30000 && jsLe i.reviews 200

/-- `calculateProfitability` (source lines 257-272). -/
def calculateProfitability (items : List Item) : TierCount :=
  let profitableBooks := (items.filter profitableP).length
  if profitableBooks ≥ 6 then ⟨Color.green, 100, profitableBooks⟩
  else if profitableBooks ≥ 3 then ⟨Color.yellow, 50, profitableBooks⟩
  else ⟨Color.red, 0, profitableBooks⟩

/-- The filter predicate of `calculateCompetition`: `item.reviews >= 500`. -/
def competitiveP (i : Item) : Bool :=
  jsGe i.reviews 500

/-- `calculateCompetition` (source lines 278-289). -/
def calculateCompetition (items : List Item) : TierCount :=
  let competitiveBooks := (items.filter competitiveP).length
  if competitiveBooks ≤ 3 then ⟨Color.green, 100, competitiveBooks⟩
  else if competitiveBooks ≤ 6 then ⟨Color.yellow, 50, competitiveBooks⟩
  else ⟨Color.red, 0, competitiveBooks⟩

/-- Alternation `(?:ratings?|reviews?)` (case-insensitive): consume one of
the four words, returning the rest. -/
def matchRatingsWord (s : List Char) : Option (List Char) :=
  match matchLitCI "rating".toList s with
  | some r => some (matchOptS r)
  | none =>
    match matchLitCI "review".toList s with
    | some r => some (matchOptS r)
    | none => none

/-- Review pattern 1, at one position:
`/\(([\d,]+)\s*(?:ratings?|reviews?)\)/i`.  Returns the capture group. -/
def matchParenAt : List Char → Option (List Char)
  | '(' :: rest =>
    let cap := rest.takeWhile isDigitComma
    if cap.isEmpty then none else
    (matchRatingsWord (skipWs (rest.drop cap.length))).bind fun r =>
    match r with
    | ')' :: _ => some cap
    | _ => none
  | _ => none

/-- Review pattern 2, at one position:
`/([\d,]+)\s+global\s+(?:ratings?|reviews?)/i`.  Returns the capture group. -/
def matchGlobalAt (s : List Char) : Option (List Char) :=
  let cap := s.takeWhile isDigitComma
  if cap.isEmpty then none else
  (matchWsPlus (s.drop cap.length)).bind fun r1 =>
  (matchLitCI "global".toList r1).bind fun r2 =>
  (matchWsPlus r2).bind fun r3 =>
  (matchRatingsWord r3).map fun _ => cap

/-- Review pattern 3, at one position:
`/([\d,]+)\s+(?:ratings?|reviews?)/i`.  Returns the capture group. -/
def matchBareAt (s : List Char) : Option (List Char) :=
  let cap := s.takeWhile isDigitComma
  if cap.isEmpty then none else
  (matchWsPlus (s.drop cap.length)).bind fun r1 =>
  (matchRatingsWord r1).map fun _ => cap

/-- Review-count extraction (source lines 168-190).  `reviews` starts at `0`;
each later pattern is attempted only while `reviews === 0` (so a pattern that
matched but parsed to `0` does not stop the chain, and a `NaN` — `none` —
stops it).  Returns `none` exactly when the winning capture was all commas. -/
def extractReviews (text : List Char) : Option Nat :=
  let reviews : Option Nat := some 0
  let reviews :=
    match firstMatchFrom matchParenAt text with
    | some c => parseIntJS (stripCommas c)
    | none => reviews
  let reviews :=
    if reviews = some 0 then
      match firstMatchFrom matchGlobalAt text with
      | some c => parseIntJS (stripCommas c)
      | none => reviews
    else reviews
  let reviews :=
    if reviews = some 0 then
      match firstMatchFrom matchBareAt text with
      | some c => parseIntJS (stripCommas c)
      | none => reviews
    else reviews
  reviews

/-- Rating pattern, at one position: `/(\d+\.?\d*)\s*out\s*of/` (note: case
sensitive).  Returns the capture group `\d+\.?\d*`. -/
def matchRatingNumAt (s : List Char) : Option (List Char) :=
  let ip := s.takeWhile Char.isDigit
  if ip.isEmpty then none else
  let afterInt := s.drop ip.length
  let capRest :=
    match afterInt with
    | '.' :: rest =>
      (ip ++ '.' :: rest.takeWhile Char.isDigit, rest.drop (rest.takeWhile Char.isDigit).length)
    | _ => (ip, afterInt)
  (matchLit "out".toList (skipWs capRest.2)).bind fun r1 =>
  (matchLit "of".toList (skipWs r1)).map fun _ => capRest.1

/-- Exact rational value of a `\d+\.?\d*` capture (`parseFloat` on such a
capture, modelled exactly: decimal literals are read as rationals). -/
def parseFloatCap (s : List Char) : Rat :=
  let ip := s.takeWhile Char.isDigit
  match s.drop ip.length with
  | '.' :: fp => (digitsToNat ip : Rat) + (digitsToNat fp : Rat) / (10 : Rat) ^ fp.length
  | _ => (digitsToNat ip : Rat)

/-- The price pattern `/[\d.]+/`, at one position: the maximal nonempty run
of digits and dots (the whole match is used, there is no capture group). -/
def matchNumDotAt (s : List Char) : Option (List Char) :=
  let run := s.takeWhile (fun c => c.isDigit || c = '.')
  if run.isEmpty then none else some run

/-- `parseFloat` on a `[\d.]+` run: leading digits, an optional dot and more
digits; `NaN` (`none`) when the run starts with a dot not followed by a
digit.  Parsing stops at a second dot, as `parseFloat` does. -/
def parseFloatJS (s : List Char) : Option Rat :=
  let ip := s.takeWhile Char.isDigit
  match s.drop ip.length with
  | '.' :: rest =>
    let fp := rest.takeWhile Char.isDigit
    if ip.isEmpty && fp.isEmpty then none
    else some ((digitsToNat ip : Rat) + (digitsToNat fp : Rat) / (10 : Rat) ^ fp.length)
  | _ => if ip.isEmpty then none else some (digitsToNat ip)

/-- JavaScript `String.prototype.trim`: strip whitespace at both ends. -/
def trimJS (s : List Char) : List Char :=
  ((s.dropWhile isWs).reverse.dropWhile isWs).reverse

/-- One `[data-component-type="s-search-result"]` fragment, reduced to the
observations the extraction code makes of it: the text of the first node
each selector finds (`none` when the selection is empty) and the full text
of the fragment. -/
structure Fragment where
  h2aSpan : Option (List Char)
  h2TextNormal : Option (List Char)
  h2a : Option (List Char)
  dataAsin : Option (List Char)
  priceWhole : Option (List Char)
  iconAlt : Option (List Char)
  text : List Char
  deriving DecidableEq, Repr

/-- Title extraction as the code actually behaves (source lines 113-121).
the `element.find(…).first()` call evaluates to a cheerio object, which is
truthy even when the selection is empty, so the two `||` fallbacks to
`h2 .a-text-normal` and `h2 a` are never evaluated; when the first selection
is empty the `titleElement.length > 0` guard fails and `title` stays empty. -/
def extractTitle (f : Fragment) : List Char :=
  match f.h2aSpan with
  | some t => trimJS t
  | none => []

/-- Title extraction as the specification describes it: the three selector
strategies tried in order, first present node wins, its text trimmed. -/
def extractTitleClaimed (f : Fragment) : List Char :=
  match f.h2aSpan with
  | some t => trimJS t
  | none =>
    match f.h2TextNormal with
    | some t => trimJS t
    | none =>
      match f.h2a with
      | some t => trimJS t
      | none => []

/-- ASIN extraction (source line 126): the data attribute, with the sentinel
text `N/A` under the JavaScript or-operator;
the empty string is falsy, hence also replaced by the sentinel. -/
def extractAsin (f : Fragment) : List Char :=
  match f.dataAsin with
  | some a => if a.isEmpty then "N/A".toList else a
  | none => "N/A".toList

/-- Price extraction (source lines 129-137). -/
def extractPrice (f : Fragment) : Option Rat :=
  match f.priceWhole with
  | none => some 0
  | some t =>
    match firstMatchFrom matchNumDotAt t with
    | none => some 0
    | some run => parseFloatJS run

/-- Rating extraction (source lines 157-165): parse the leading decimal of
the first `"<float> out of"` occurrence in the `.a-icon-alt` text; `0` when
the selection is empty or the pattern does not match. -/
def extractRating (f : Fragment) : Rat :=
  match f.iconAlt with
  | none => 0
  | some t =>
    match firstMatchFrom matchRatingNumAt t with
    | some cap => parseFloatCap cap
    | none => 0

/-- The body of the item loop (source lines 112-199): build the item unless
the extracted title is empty or shorter than 5 characters, in which case the
fragment contributes nothing (`continue`). -/
def extractItem (f : Fragment) : Option Item :=
  let title := extractTitle f
  if title.isEmpty || title.length < 5 then none
  else some
    { title := title
      asin := extractAsin f
      price := extractPrice f
      bsr := extractBSR f.text
      rating := extractRating f
      reviews := extractReviews f.text }

/-- The record built for a fragment that passes the title guard. -/
def itemOf (f : Fragment) : Item :=
  { title := extractTitle f
    asin := extractAsin f
    price := extractPrice f
    bsr := extractBSR f.text
    rating := extractRating f
    reviews := extractReviews f.text }

/-- The item loop over the result fragments of the page (source lines 104-205):
at most the first 20 fragments are processed, and each contributes its item
exactly when its title passes the guard. -/
def processFragments (frags : List Fragment) : List Item :=
  (frags.take 20).filterMap extractItem

/-- Overall score: `Math.round((p + q + r) / 3)` on the three tier values,
rendered exactly for natural sums (round half up: `⌊(2 s + 3) / 6⌋`). -/
def overallScore (p q r : Nat) : Nat :=
  (2 * (p + q + r) + 3) / 6

/-- The record returned by `calculateScores` (source lines 240-305). -/
structure Scores where
  popularity : TierScore
  profitability : TierCount
  competition : TierCount
  overall : Nat
  deriving DecidableEq, Repr

/-- `calculateScores` (source lines 240-305), as a function of the total
result count and the item list. -/
def calculateScores (totalResults : Nat) (items : List Item) : Scores :=
  let popularity := calculatePopularity totalResults
  let profitability := calculateProfitability items
  let competition := calculateCompetition items
  { popularity := popularity
    profitability := profitability
    competition := competition
    overall := overallScore popularity.value profitability.value competition.value }

/-- The successful payload of the analyze endpoint. -/
structure AnalysisResult where
  keyword : List Char
  items : List Item
  totalResults : Nat
  scores : Scores
  deriving DecidableEq, Repr

/-- The three ways the `/api/analyze` handler responds. -/
inductive AnalyzeResponse where
  | validationError
  | serverError (msg : List Char)
  | ok (result : AnalysisResult)
  deriving DecidableEq, Repr

/-- The outcome of the external page fetch, reduced to what the rest of the
pipeline consumes: the parsed result fragments and the total result count
of the banner, or a failure message. -/
def FetchOutcome : Type :=
  Except (List Char) (List Fragment × Nat)

/-- The `/api/analyze` handler (source lines 17-46): reject a missing or
empty keyword with a client error before any fetch; otherwise fetch, run the
extraction loop and the scoring engine, and assemble the response (a fetch
failure becomes a server error). -/
def analyze (keyword : Option (List Char)) (fetch : List Char → FetchOutcome) :
    AnalyzeResponse :=
  match keyword with
  | none => AnalyzeResponse.validationError
  | some k =>
    if k.isEmpty then AnalyzeResponse.validationError
    else
      match fetch k with
      | Except.error e => AnalyzeResponse.serverError e
      | Except.ok (frags, totalResults) =>
        let items := processFragments frags
        AnalyzeResponse.ok
          { keyword := k
            items := items
            totalResults := totalResults
            scores := calculateScores totalResults items }

/-- Substring test used to state claims of the form "text containing …". -/
def containsSub (pat : List Char) : List Char → Bool
  | [] => pat.isPrefixOf []
  | c :: cs => pat.isPrefixOf (c :: cs) || containsSub pat cs

/-- A fragment with empty selections and empty text, used as a base for the
concrete fragments of the witnesses and counterexamples. -/
def emptyFragment : Fragment where
  h2aSpan := none
  h2TextNormal := none
  h2a := none
  dataAsin := none
  priceWhole := none
  iconAlt := none
  text := []

/-- The profitability predicate in the words of the claim: `rank > 0 AND
rank ≤ 30000 AND reviewCount ≤ 200` (false on a `NaN` field, as every
JavaScript comparison against `NaN` is). -/
def profitableSpecP (i : Item) : Bool :=
  match i.bsr, i.reviews with
  | some rank, some reviewCount =>
    decide (rank > 0) && decide (rank ≤ 30000) && decide (reviewCount ≤ 200)
  | _, _ => false

/-- The competition predicate in the words of the claim: `reviewCount ≥ 500`. -/
def competitiveSpecP (i : Item) : Bool :=
  match i.reviews with
  | some reviewCount => decide (reviewCount ≥ 500)
  | none => false

/-- Sample text on which the third rank pattern has a position match. -/
def p3SampleText : List Char :=
  "Amazon Best Sellers Rank #7".toList

/-- The text used to refute the universal form of the rank-precedence claim:
it contains both the substring `"Best Sellers Rank ... #500"` and the
substring `"#999"`, yet the leftmost match of the first pattern starts at
the earlier rank phrase and captures `999`. -/
def bsrCexText : List Char :=
  "Best Sellers Rank of #999 Best Sellers Rank ... #500".toList

/-- The text used to refute the "first successful match wins" form of the
review-count claim: the parenthesized strategy matches (capturing `0`), yet
the later `global` strategy is still consulted and its value is returned. -/
def reviewsCexText : List Char :=
  "(0 ratings) 77 global ratings".toList

/-- A fragment whose `h2 a span` selection is empty but whose
`h2 .a-text-normal` selection carries a valid title. -/
def fallbackFragment : Fragment :=
  { emptyFragment with h2TextNormal := some "Valid Title".toList }

/-- A fragment carrying a five-character title. -/
def titledFragment : Fragment :=
  { emptyFragment with h2aSpan := some "Hello".toList }

/-- A fragment carrying a two-character title, dropped by the guard. -/
def shortTitledFragment : Fragment :=
  { emptyFragment with h2aSpan := some "Hi".toList }

/-- A fragment whose `.a-icon-alt` text encodes a rating above 5. -/
def overflowRatingFragment : Fragment :=
  { emptyFragment with iconAlt := some "9.9 out of 10".toList }

/-- A concrete failing fetch (the external collaborator raising). -/
def fetchFail : List Char → FetchOutcome :=
  fun _ => Except.error "navigation timeout".toList

/-- A concrete succeeding fetch returning an empty page. -/
def fetchEmpty : List Char → FetchOutcome :=
  fun _ => Except.ok ([], 0)

theorem profitableP_eq_spec : profitableP = profitableSpecP := by
  funext i
  unfold profitableP profitableSpecP jsGt jsLe
  cases i.bsr <;> cases i.reviews <;> simp

theorem competitiveP_eq_spec : competitiveP = competitiveSpecP := by
  funext i
  unfold competitiveP competitiveSpecP jsGe
  cases i.reviews <;> simp

/-- Claim C1: for every non-negative integer `totalResultCount`,
`calculatePopularity` returns tier green with value 100 iff the count is at
most 1000, tier yellow with value 50 iff it lies in `[1001, 3000]`, and tier
red with value 0 iff it exceeds 3000; the boundaries at 1000 and 3000 are
exact. -/
theorem claim_C1_popularity_tiers (n : Nat) :
    (calculatePopularity n = ⟨Color.green, 100⟩ ↔ n ≤ 1000) ∧
    (calculatePopularity n = ⟨Color.yellow, 50⟩ ↔ 1001 ≤ n ∧ n ≤ 3000) ∧
    (calculatePopularity n = ⟨Color.red, 0⟩ ↔ 3000 < n) := by
  unfold calculatePopularity
  split_ifs with h1 h2 <;> refine ⟨?_, ?_, ?_⟩ <;> simp_all <;> omega

/-- Claim C2: for every item list, the `count` field of the profitability
score equals
the exact number of items satisfying `rank > 0 AND rank ≤ 30000 AND
reviewCount ≤ 200`, the tier is green/100 iff that count is at least 6,
yellow/50 iff it lies in `[3, 5]`, and red/0 iff it is below 3 (both lower
bounds inclusive), and the empty list yields count 0 and red/0. -/
theorem claim_C2_profitability_count_and_tiers (items : List Item) :
    (calculateProfitability items).count = (items.filter profitableSpecP).length ∧
    ((calculateProfitability items).score = Color.green ∧
        (calculateProfitability items).value = 100 ↔
      6 ≤ (calculateProfitability items).count) ∧
    ((calculateProfitability items).score = Color.yellow ∧
        (calculateProfitability items).value = 50 ↔
      3 ≤ (calculateProfitability items).count ∧ (calculateProfitability items).count ≤ 5) ∧
    ((calculateProfitability items).score = Color.red ∧
        (calculateProfitability items).value = 0 ↔
      (calculateProfitability items).count < 3) ∧
    calculateProfitability [] = ⟨Color.red, 0, 0⟩ := by
  rw [← profitableP_eq_spec]
  refine ⟨?_, ?_, ?_, ?_, rfl⟩ <;>
    (unfold calculateProfitability; dsimp only; split_ifs with h1 h2) <;> simp_all <;> omega

/-- Claim C3: for every item list, the `count` field of the competition
score equals the
exact number of items with `reviewCount ≥ 500`, the tier is green/100 iff
that count is at most 3, yellow/50 iff it lies in `[4, 6]`, and red/0 iff it
is at least 7; the empty list gives count 0 and lands in the green bucket
with no special case. -/
theorem claim_C3_competition_count_and_tiers (items : List Item) :
    (calculateCompetition items).count = (items.filter competitiveSpecP).length ∧
    ((calculateCompetition items).score = Color.green ∧
        (calculateCompetition items).value = 100 ↔
      (calculateCompetition items).count ≤ 3) ∧
    ((calculateCompetition items).score = Color.yellow ∧
        (calculateCompetition items).value = 50 ↔
      4 ≤ (calculateCompetition items).count ∧ (calculateCompetition items).count ≤ 6) ∧
    ((calculateCompetition items).score = Color.red ∧
        (calculateCompetition items).value = 0 ↔
      7 ≤ (calculateCompetition items).count) ∧
    calculateCompetition [] = ⟨Color.green, 100, 0⟩ := by
  rw [← competitiveP_eq_spec]
  refine ⟨?_, ?_, ?_, ?_, rfl⟩ <;>
    (unfold calculateCompetition; dsimp only; split_ifs with h1 h2) <;> simp_all <;> omega

theorem matchLitCI_suffix : ∀ (p s r : List Char), matchLitCI p s = some r → r <:+ s := by
  intro p
  induction p with
  | nil =>
    intro s r h
    simp only [matchLitCI, Option.some.injEq] at h
    exact h ▸ List.suffix_refl s
  | cons a ps ih =>
    intro s r h
    cases s with
    | nil => simp [matchLitCI] at h
    | cons c cs =>
      simp only [matchLitCI] at h
      split at h
      · exact (ih cs r h).trans (List.suffix_cons c cs)
      · exact absurd h (by simp)

theorem skipWs_suffix : ∀ s : List Char, skipWs s <:+ s := by
  intro s
  induction s with
  | nil => exact List.suffix_refl []
  | cons c cs ih =>
    by_cases h : isWs c
    · simpa [skipWs, h] using ih.trans (List.suffix_cons c cs)
    · simp [skipWs, h]

theorem firstMatchFrom_eq_none (m : List Char → Option (List Char)) :
    ∀ t, firstMatchFrom m t = none → ∀ s, s <:+ t → m s = none := by
  intro t
  induction t with
  | nil =>
    intro h s hs
    rw [List.suffix_nil.mp hs]
    exact h
  | cons c cs ih =>
    intro h s hs
    have h2 : m (c :: cs) = none ∧ firstMatchFrom m cs = none := by
      unfold firstMatchFrom at h
      cases hm : m (c :: cs) with
      | some r => rw [hm] at h; exact absurd h (by simp)
      | none => rw [hm] at h; exact ⟨rfl, h⟩
    rcases List.suffix_cons_iff.mp hs with h3 | h3
    · rw [h3]; exact h2.1
    · exact ih h2.2 s h3

theorem firstMatchFrom_eq_some (m : List Char → Option (List Char)) :
    ∀ t c, firstMatchFrom m t = some c → ∃ s, s <:+ t ∧ m s = some c := by
  intro t
  induction t with
  | nil =>
    intro c h
    exact ⟨[], List.suffix_refl [], h⟩
  | cons a cs ih =>
    intro c h
    unfold firstMatchFrom at h
    cases hm : m (a :: cs) with
    | some r =>
      rw [hm] at h
      exact ⟨a :: cs, List.suffix_refl _, hm.trans h⟩
    | none =>
      rw [hm] at h
      obtain ⟨s, hs, hms⟩ := ih c h
      exact ⟨s, hs.trans (List.suffix_cons a cs), hms⟩

/-- Any position match of the third rank pattern contains a position match of
the first rank pattern with the same capture group (the third pattern is the
first one prefixed by `Amazon\s*`). -/
theorem matchP3At_gives_matchP1At (s c : List Char) (h : matchP3At s = some c) :
    ∃ s2, s2 <:+ s ∧ matchP1At s2 = some c := by
  unfold matchP3At at h
  cases ha : matchLitCI "amazon".toList s with
  | none => rw [ha] at h; exact absurd h (by simp)
  | some s1 =>
    rw [ha] at h
    exact ⟨skipWs s1, (skipWs_suffix s1).trans (matchLitCI_suffix _ s s1 ha), h⟩

/-- When the first rank pattern has no match anywhere in the text, neither
has the third. -/
theorem firstMatch_p3_none (t : List Char) (h : firstMatchFrom matchP1At t = none) :
    firstMatchFrom matchP3At t = none := by
  cases hp : firstMatchFrom matchP3At t with
  | none => rfl
  | some c =>
    obtain ⟨s, hs, hms⟩ := firstMatchFrom_eq_some matchP3At t c hp
    obtain ⟨s2, hs2, hm1⟩ := matchP3At_gives_matchP1At s c hms
    have := firstMatchFrom_eq_none matchP1At t h s2 (hs2.trans hs)
    rw [this] at hm1
    exact absurd hm1 (by simp)

/-- Claim C10: the third rank pattern is unreachable — every position match
of it yields a first-pattern match with the same captured digit group, so
the extractor over the pattern list without the third pattern is
extensionally equal to the original. -/
theorem claim_C10_pattern3_redundant :
    (∀ t c, firstMatchFrom matchP3At t = some c →
      ∃ s, s <:+ t ∧ matchP1At s = some c) ∧
    ∀ t, extractBSR t = extractBSRNoP3 t := by
  constructor
  · intro t c h
    obtain ⟨s, hs, hms⟩ := firstMatchFrom_eq_some matchP3At t c h
    obtain ⟨s2, hs2, hm1⟩ := matchP3At_gives_matchP1At s c hms
    exact ⟨s2, hs2.trans hs, hm1⟩
  · intro t
    cases h1 : firstMatchFrom matchP1At t with
    | some c =>
      simp [extractBSR, extractBSRNoP3, bsrPatterns, bsrPatternsNoP3, firstPatternCapture, h1]
    | none =>
      have h3 := firstMatch_p3_none t h1
      cases h2 : firstMatchFrom matchP2At t with
      | some c =>
        simp [extractBSR, extractBSRNoP3, bsrPatterns, bsrPatternsNoP3, firstPatternCapture,
          h1, h2]
      | none =>
        simp [extractBSR, extractBSRNoP3, bsrPatterns, bsrPatternsNoP3, firstPatternCapture,
          h1, h2, h3]

theorem claim_C10_witness :
    (∃ s, s <:+ p3SampleText ∧ matchP1At s = some ['7']) ∧
    extractBSR p3SampleText = extractBSRNoP3 p3SampleText :=
  ⟨claim_C10_pattern3_redundant.1 p3SampleText ['7'] (by decide),
    claim_C10_pattern3_redundant.2 p3SampleText⟩

/-- Claim C4, counterexample: a text containing both
`"Best Sellers Rank ... #500"` and a bare `"#999"` for which the extracted
rank is 999, not 500 — the leftmost match of the first pattern begins at the
first rank phrase and its lazy gap stops at the nearer `#999`. -/
theorem claim_C4_counterexample :
    containsSub "Best Sellers Rank ... #500".toList bsrCexText = true ∧
    containsSub "#999".toList bsrCexText = true ∧
    extractBSR bsrCexText = some 999 ∧
    extractBSR bsrCexText ≠ some 500 := by
  refine ⟨by decide, by decide, by decide, by decide⟩

/-- Claim C4, amended: the rank is resolved by applying the four patterns in
strict precedence order, stopping at the first pattern with a (leftmost)
match, with thousands separators stripped before parsing, and is the
sentinel 999999 when none match; the precedence scenario of the spec holds when
no rank phrase precedes the bare number — for a text carrying a bare `#999`
before any rank phrase and `"Best Sellers Rank ... #500"`, the extracted
rank is 500. -/
theorem claim_C4_rank_precedence :
    (∀ t, extractBSR t =
      match firstMatchFrom matchP1At t with
      | some c => parseIntJS (stripCommas c)
      | none =>
        match firstMatchFrom matchP2At t with
        | some c => parseIntJS (stripCommas c)
        | none =>
          match firstMatchFrom matchP3At t with
          | some c => parseIntJS (stripCommas c)
          | none =>
            match firstMatchFrom matchP4At t with
            | some c => parseIntJS (stripCommas c)
            | none => some 999999) ∧
    extractBSR "#999 and Best Sellers Rank ... #500".toList = some 500 ∧
    extractBSR "no pound sign anywhere".toList = some 999999 := by
  refine ⟨?_, by decide, by decide⟩
  intro t
  cases h1 : firstMatchFrom matchP1At t with
  | some c1 => simp [extractBSR, bsrPatterns, firstPatternCapture, h1]
  | none =>
    cases h2 : firstMatchFrom matchP2At t with
    | some c2 => simp [extractBSR, bsrPatterns, firstPatternCapture, h1, h2]
    | none =>
      cases h3 : firstMatchFrom matchP3At t with
      | some c3 => simp [extractBSR, bsrPatterns, firstPatternCapture, h1, h2, h3]
      | none =>
        cases h4 : firstMatchFrom matchP4At t with
        | some c4 => simp [extractBSR, bsrPatterns, firstPatternCapture, h1, h2, h3, h4]
        | none => simp [extractBSR, bsrPatterns, firstPatternCapture, h1, h2, h3, h4]

/-- Claim C5, counterexample: on a text where the first review strategy has
a successful match (capturing `0`), the later strategies are consulted
anyway, and the extracted review count is 77 rather than the value 0 of the
first match. -/
theorem claim_C5_counterexample :
    firstMatchFrom matchParenAt reviewsCexText = some ['0'] ∧
    parseIntJS (stripCommas ['0']) = some 0 ∧
    extractReviews reviewsCexText = some 77 ∧
    extractReviews reviewsCexText ≠ some 0 := by
  refine ⟨by decide, by decide, by decide, by decide⟩

/-- Claim C5, amended: the three strategies are tried in order, but a later
strategy is consulted whenever the running value is still exactly 0 — so an
earlier match whose parsed value is 0 does not stop the chain; an earlier
match with a nonzero parsed value does win, the result is 0 when no strategy
matches, and the two particulars hold: `"(1,234 ratings)"` yields 1234 and a
text with only `"5,000 global ratings"` yields 5000. -/
theorem claim_C5_review_strategies :
    (∀ t c, firstMatchFrom matchParenAt t = some c →
      parseIntJS (stripCommas c) ≠ some 0 →
      extractReviews t = parseIntJS (stripCommas c)) ∧
    (∀ t, firstMatchFrom matchParenAt t = none →
      firstMatchFrom matchGlobalAt t = none →
      firstMatchFrom matchBareAt t = none →
      extractReviews t = some 0) ∧
    extractReviews "(1,234 ratings)".toList = some 1234 ∧
    extractReviews "It has 5,000 global ratings".toList = some 5000 := by
  refine ⟨?_, ?_, by decide, by decide⟩
  · intro t c h1 h2
    simp [extractReviews, h1, h2]
  · intro t h1 h2 h3
    simp [extractReviews, h1, h2, h3]

theorem claim_C5_witness :
    extractReviews "(9 reviews)".toList = parseIntJS (stripCommas ['9']) ∧
    extractReviews "nothing here".toList = some 0 :=
  ⟨claim_C5_review_strategies.1 "(9 reviews)".toList ['9'] (by decide) (by decide),
    claim_C5_review_strategies.2.1 "nothing here".toList (by decide) (by decide) (by decide)⟩

/-- Claim C6: the title fallback chain is dead code.  On a fragment whose
first selector finds nothing but whose second selector carries the text
`"Valid Title"`, the title computed by the code is empty (and the item is then
dropped by the length guard), while the specified ordered-fallback
extraction would return `"Valid Title"`: `element.find(...).first()` is a
cheerio object and hence truthy even for an empty selection, so the two
`||` fallbacks in the source are never evaluated. -/
theorem claim_C6_title_fallback_dead :
    extractTitle fallbackFragment = [] ∧
    extractTitleClaimed fallbackFragment = "Valid Title".toList ∧
    extractItem fallbackFragment = none := by
  refine ⟨rfl, by decide, rfl⟩

theorem extractItem_eq (f : Fragment) :
    extractItem f = if 5 ≤ (extractTitle f).length then some (itemOf f) else none := by
  unfold extractItem itemOf
  by_cases h : 5 ≤ (extractTitle f).length
  · rw [if_pos h]
    have h1 : (extractTitle f).isEmpty = false := by
      cases he : extractTitle f with
      | nil => rw [he] at h; simp at h
      | cons c cs => rfl
    have h2 : ¬ (extractTitle f).length < 5 := by omega
    simp [h1, h2]
  · rw [if_neg h]
    by_cases he : (extractTitle f).isEmpty
    · simp [he]
    · have h2 : (extractTitle f).length < 5 := by omega
      simp [h2]

theorem filterMap_extractItem (l : List Fragment) :
    l.filterMap extractItem
      = (l.filter fun f => 5 ≤ (extractTitle f).length).map itemOf := by
  induction l with
  | nil => rfl
  | cons f t ih =>
    by_cases h : 5 ≤ (extractTitle f).length
    · simp [List.filterMap_cons, List.filter_cons, extractItem_eq, h, ih]
    · simp [List.filterMap_cons, List.filter_cons, extractItem_eq, h, ih]

/-- Claim C7: the produced item list consists exactly of the items of those
fragments (among the first 20) whose extracted title has length at least 5,
in page order; the title of every produced item has length at least 5, and a
fragment whose title fails the guard contributes no entry at all. -/
theorem claim_C7_title_length_invariant (frags : List Fragment) :
    processFragments frags
      = ((frags.take 20).filter fun f => 5 ≤ (extractTitle f).length).map itemOf ∧
    (∀ it, it ∈ processFragments frags → 5 ≤ it.title.length) ∧
    (∀ f, f ∈ frags.take 20 → (extractTitle f).length < 5 → extractItem f = none) := by
  refine ⟨filterMap_extractItem (frags.take 20), ?_, ?_⟩
  · intro it hit
    rw [processFragments, filterMap_extractItem (frags.take 20)] at hit
    obtain ⟨f, hf, rfl⟩ := List.mem_map.mp hit
    have := (List.mem_filter.mp hf).2
    simpa [itemOf] using of_decide_eq_true this
  · intro f _ hshort
    rw [extractItem_eq]
    exact if_neg (by omega)

theorem claim_C7_witness :
    5 ≤ (itemOf titledFragment).title.length ∧
    extractItem shortTitledFragment = none ∧
    processFragments [titledFragment, shortTitledFragment] = [itemOf titledFragment] :=
  ⟨(claim_C7_title_length_invariant [titledFragment, shortTitledFragment]).2.1
      (itemOf titledFragment) (List.Mem.head _),
    (claim_C7_title_length_invariant [titledFragment, shortTitledFragment]).2.2
      shortTitledFragment (by decide) (by decide),
    by decide⟩

theorem extractRating_overflow : extractRating overflowRatingFragment = 99 / 10 := by
  have hic : overflowRatingFragment.iconAlt = some "9.9 out of 10".toList := rfl
  have h1 : firstMatchFrom matchRatingNumAt "9.9 out of 10".toList = some ['9', '.', '9'] := by
    decide
  have h2 : List.takeWhile Char.isDigit ['9', '.', '9'] = ['9'] := by decide
  have h3 : digitsToNat ['9'] = 9 := by decide
  have h4 : List.drop (List.length ['9']) ['9', '.', '9'] = ['.', '9'] := by decide
  simp only [extractRating, hic, h1, parseFloatCap, h2, h4, h3]
  norm_num

/-- Claim C8, counterexample: the rating parser applies no upper bound — a
fragment whose accessible label reads `"9.9 out of 10"` produces an item
rating of 9.9, which exceeds 5, refuting the claimed `[0, 5]` invariant. -/
theorem claim_C8_counterexample :
    extractRating overflowRatingFragment = 99 / 10 ∧
    ¬ extractRating overflowRatingFragment ≤ 5 := by
  refine ⟨extractRating_overflow, ?_⟩
  rw [extractRating_overflow]
  norm_num

theorem parseFloatCap_nonneg (s : List Char) : 0 ≤ parseFloatCap s := by
  unfold parseFloatCap
  dsimp only
  split <;> positivity

/-- Claim C8, amended: the extracted rating is always at least 0, with 0 as
the sentinel for an absent or unmatched label, but the upper bound 5 is not
enforced by the extractor — a label encoding `"9.9 out of 10"` yields the
rating 9.9. -/
theorem claim_C8_rating_lower_bound_only :
    (∀ f : Fragment, 0 ≤ extractRating f) ∧
    extractRating overflowRatingFragment = 99 / 10 := by
  refine ⟨?_, extractRating_overflow⟩
  intro f
  unfold extractRating
  cases f.iconAlt with
  | none => exact le_refl (0 : Rat)
  | some t =>
    dsimp only
    cases firstMatchFrom matchRatingNumAt t with
    | some cap => exact parseFloatCap_nonneg cap
    | none => exact le_refl (0 : Rat)

/-- Claim C9: the analyze operation answers with the validation error
exactly when the keyword is missing or empty, and for such a keyword the
outcome is independent of the fetch collaborator — no fetch and no analysis
is performed, and the validation response carries no item list; a non-empty
keyword never yields the validation error. -/
theorem claim_C9_keyword_validation (k : Option (List Char))
    (fetch : List Char → FetchOutcome) :
    (analyze k fetch = AnalyzeResponse.validationError ↔ k = none ∨ k = some []) ∧
    ((k = none ∨ k = some []) → ∀ fetch2, analyze k fetch = analyze k fetch2) := by
  constructor
  · cases k with
    | none => simp [analyze]
    | some s =>
      cases s with
      | nil => simp [analyze]
      | cons c cs =>
        constructor
        · intro h
          exfalso
          unfold analyze at h
          simp only [List.isEmpty_cons, Bool.false_eq_true, if_false] at h
          cases hf : fetch (c :: cs) with
          | error e => rw [hf] at h; exact absurd h (by simp)
          | ok p =>
            obtain ⟨frags, total⟩ := p
            rw [hf] at h
            exact absurd h (by simp)
        · rintro (h | h) <;> simp at h
  · rintro (rfl | rfl) <;> intro fetch2 <;> rfl

theorem claim_C9_witness :
    analyze none fetchFail = AnalyzeResponse.validationError ∧
    analyze (some []) fetchFail = AnalyzeResponse.validationError ∧
    analyze none fetchFail = analyze none fetchEmpty :=
  ⟨(claim_C9_keyword_validation none fetchFail).1.mpr (Or.inl rfl),
    (claim_C9_keyword_validation (some []) fetchFail).1.mpr (Or.inr rfl),
    (claim_C9_keyword_validation none fetchFail).2 (Or.inl rfl) fetchEmpty⟩
